import Mathlib

/-!
Verification development for the pgtime calendar arithmetic library
(src/pgtime.c).  The C data type `struct tm` is embedded as the structure
`Tm` below; every C function the claims mention is translated into a Lean
function of the same name.  C `int` values become `Int`; the in-place
mutation style of the C code becomes explicit record update; the
`assert(false)` default branches of the day-walking switches and the
`exit(EXIT_FAILURE)` fatal paths become `Option` results (`none` = the
process terminates).  The external platform calendar engine (`mktime`,
`gmtime` from libc) is not part of this repository; it is abstracted as a
`Platform` record of two fallible functions.
-/

namespace Pgtime

/-- Embedding of the fields of `struct tm` used by pgtime: second, minute,
hour, day of month, month (0-11), years since 1900, and the DST hint. -/
structure Tm where
  tm_sec : Int
  tm_min : Int
  tm_hour : Int
  tm_mday : Int
  tm_mon : Int
  tm_year : Int
  tm_isdst : Int
  deriving DecidableEq, Repr

/-- Embedding of `is_leap_year` (pgtime.c lines 306-317): divisible by 4 and
either not divisible by 100 or divisible by 400. -/
def is_leap_year (year : Int) : Bool :=
  year % 4 == 0 && (year % 100 != 0 || year % 400 == 0)

/-- The static array `days_in_month` of `validate_date` (pgtime.c lines
28-29), as a function of the month index; the C code only indexes it with a
month already checked to lie in 0..11. -/
def days_in_month (m : Int) : Int :=
  if m = 0 then 31 else if m = 1 then 28 else if m = 2 then 31
  else if m = 3 then 30 else if m = 4 then 31 else if m = 5 then 30
  else if m = 6 then 31 else if m = 7 then 31 else if m = 8 then 30
  else if m = 9 then 31 else if m = 10 then 30 else if m = 11 then 31
  else 0

/-- Embedding of `validate_date` (pgtime.c lines 26-44). -/
def validate_date (t : Tm) : Bool :=
  if t.tm_year = -1900 ∨
     (t.tm_mon < 0 ∨ t.tm_mon > 11) ∨
     t.tm_mday < 1 ∨
     (t.tm_mday > days_in_month t.tm_mon ∧
       ¬ (t.tm_mon = 1 ∧ t.tm_mday = 29 ∧
          is_leap_year (t.tm_year + 1900) = true)) ∨
     (t.tm_hour < 0 ∨ t.tm_hour > 23) ∨
     (t.tm_min < 0 ∨ t.tm_min > 59) ∨
     (t.tm_sec < 0 ∨ t.tm_sec > 59)
  then false else true

/-- Embedding of `tm_compare` (pgtime.c lines 234-255): lexicographic
comparison of year, month, day, hour, minute, second; returns -1, 0, or 1. -/
def tm_compare (first second : Tm) : Int :=
  if first.tm_year ≠ second.tm_year then
    (if first.tm_year > second.tm_year then 1 else -1)
  else if first.tm_mon ≠ second.tm_mon then
    (if first.tm_mon > second.tm_mon then 1 else -1)
  else if first.tm_mday ≠ second.tm_mday then
    (if first.tm_mday > second.tm_mday then 1 else -1)
  else if first.tm_hour ≠ second.tm_hour then
    (if first.tm_hour > second.tm_hour then 1 else -1)
  else if first.tm_min ≠ second.tm_min then
    (if first.tm_min > second.tm_min then 1 else -1)
  else if first.tm_sec ≠ second.tm_sec then
    (if first.tm_sec > second.tm_sec then 1 else -1)
  else 0

/-- Embedding of `tm_intraday_secs_diff` (pgtime.c lines 272-296). -/
def tm_intraday_secs_diff (first second : Tm) : Int :=
  let time_comp := tm_compare first second
  if time_comp = 0 then 0
  else
    let d0 := (second.tm_hour - first.tm_hour) * 3600
              + (second.tm_min - first.tm_min) * 60
              + (second.tm_sec - first.tm_sec)
    if time_comp = 1 ∧ d0 > 0 then d0 - 86400
    else if time_comp = -1 ∧ d0 < 0 then d0 + 86400
    else d0

/-- One iteration of the day-incrementing loop of `tm_increment_day`
(pgtime.c lines 339-390): add one to the day, then switch on the month to
handle overflow.  The `assert(false)` default branch is `none`. -/
def incDayStep (t0 : Tm) : Option Tm :=
  let t := { t0 with tm_mday := t0.tm_mday + 1 }
  if t.tm_mon = 0 ∨ t.tm_mon = 2 ∨ t.tm_mon = 4 ∨ t.tm_mon = 6 ∨
     t.tm_mon = 7 ∨ t.tm_mon = 9 then
    some (if t.tm_mday > 31 then
            { t with tm_mday := 1, tm_mon := t.tm_mon + 1 } else t)
  else if t.tm_mon = 11 then
    some (if t.tm_mday > 31 then
            { t with tm_mday := 1, tm_mon := 0,
                     tm_year := if t.tm_year = -1 then 1 else t.tm_year + 1 }
          else t)
  else if t.tm_mon = 3 ∨ t.tm_mon = 5 ∨ t.tm_mon = 8 ∨ t.tm_mon = 10 then
    some (if t.tm_mday > 30 then
            { t with tm_mday := 1, tm_mon := t.tm_mon + 1 } else t)
  else if t.tm_mon = 1 then
    some (if t.tm_mday > 29 then
            { t with tm_mday := 1, tm_mon := t.tm_mon + 1 }
          else if t.tm_mday > 28 ∧ ¬ is_leap_year t.tm_year = true then
            { t with tm_mday := 1, tm_mon := t.tm_mon + 1 }
          else t)
  else none

/-- One iteration of the day-decrementing loop of `tm_decrement_day`
(pgtime.c lines 527-574). -/
def decDayStep (t : Tm) : Option Tm :=
  if t.tm_mday > 1 then some { t with tm_mday := t.tm_mday - 1 }
  else if t.tm_mon = 0 then
    some { t with tm_mday := 31, tm_mon := 11,
                  tm_year := if t.tm_year = 1 then -1 else t.tm_year - 1 }
  else if t.tm_mon = 1 ∨ t.tm_mon = 3 ∨ t.tm_mon = 5 ∨ t.tm_mon = 7 ∨
          t.tm_mon = 8 ∨ t.tm_mon = 10 then
    some { t with tm_mday := 31, tm_mon := t.tm_mon - 1 }
  else if t.tm_mon = 4 ∨ t.tm_mon = 6 ∨ t.tm_mon = 9 ∨ t.tm_mon = 11 then
    some { t with tm_mday := 30, tm_mon := t.tm_mon - 1 }
  else if t.tm_mon = 2 then
    some { t with tm_mday := if is_leap_year t.tm_year then 29 else 28,
                  tm_mon := t.tm_mon - 1 }
  else none

/-- The `while (num_days--)` loop of `tm_increment_day`, run for a
nonnegative number of iterations. -/
def walkIncDay (t : Tm) : Nat → Option Tm
  | 0 => some t
  | n + 1 =>
    match incDayStep t with
    | none => none
    | some t2 => walkIncDay t2 n

/-- The `while (num_days--)` loop of `tm_decrement_day`. -/
def walkDecDay (t : Tm) : Nat → Option Tm
  | 0 => some t
  | n + 1 =>
    match decDayStep t with
    | none => none
    | some t2 => walkDecDay t2 n

/-- Embedding of `tm_increment_day` (pgtime.c lines 329-395): a negative
quantity delegates to `tm_decrement_day` with the negated quantity, which
then takes its nonnegative walking branch. -/
def tm_increment_day (t : Tm) (quantity : Int) : Option Tm :=
  if quantity < 0 then walkDecDay t (-quantity).toNat
  else walkIncDay t quantity.toNat

/-- Embedding of `tm_decrement_day` (pgtime.c lines 517-578). -/
def tm_decrement_day (t : Tm) (quantity : Int) : Option Tm :=
  if quantity < 0 then walkIncDay t (-quantity).toNat
  else walkDecDay t quantity.toNat

/-- The nonnegative branch of `tm_increment_hour` (pgtime.c lines 413-429).
Note that when the inner carry branch runs, the C code assigns the
post-carry remainder to `tm_hour` at line 423 and then adds `num_hours`
(still holding that remainder) to `tm_hour` again at line 428. -/
def posIncHour (t : Tm) (quantity : Int) : Option Tm :=
  if quantity ≥ 24 ∨ quantity ≥ 24 - t.tm_hour then
    let num_days := quantity / 24
    let nh := quantity - num_days * 24
    if nh ≥ 24 - t.tm_hour then
      let nh2 := nh - (24 - t.tm_hour)
      let t1 := { t with tm_hour := nh2 }
      (tm_increment_day t1 (num_days + 1)).map
        (fun u => { u with tm_hour := u.tm_hour + nh2 })
    else
      (tm_increment_day t num_days).map
        (fun u => { u with tm_hour := u.tm_hour + nh })
  else some { t with tm_hour := t.tm_hour + quantity }

/-- The nonnegative branch of `tm_decrement_hour` (pgtime.c lines 596-611). -/
def posDecHour (t : Tm) (quantity : Int) : Option Tm :=
  if quantity ≥ 24 ∨ quantity > t.tm_hour then
    let num_days := quantity / 24
    let nh := quantity - num_days * 24
    if nh > t.tm_hour then
      let nh2 := nh - t.tm_hour
      let t1 := { t with tm_hour := 24 }
      (tm_decrement_day t1 (num_days + 1)).map
        (fun u => { u with tm_hour := u.tm_hour - nh2 })
    else
      (tm_decrement_day t num_days).map
        (fun u => { u with tm_hour := u.tm_hour - nh })
  else some { t with tm_hour := t.tm_hour - quantity }

/-- Embedding of `tm_increment_hour` (pgtime.c lines 407-432). -/
def tm_increment_hour (t : Tm) (quantity : Int) : Option Tm :=
  if quantity < 0 then posDecHour t (-quantity) else posIncHour t quantity

/-- Embedding of `tm_decrement_hour` (pgtime.c lines 590-614). -/
def tm_decrement_hour (t : Tm) (quantity : Int) : Option Tm :=
  if quantity < 0 then posIncHour t (-quantity) else posDecHour t quantity

/-- The nonnegative branch of `tm_increment_minute` (pgtime.c lines
450-466); here the inner carry branch zeroes `num_mins` after folding the
remainder into `tm_min`, so the trailing addition adds zero. -/
def posIncMinute (t : Tm) (quantity : Int) : Option Tm :=
  if quantity ≥ 60 ∨ quantity ≥ 60 - t.tm_min then
    let num_hours := quantity / 60
    let nm := quantity - num_hours * 60
    if nm ≥ 60 - t.tm_min then
      let t1 := { t with tm_min := t.tm_min + (nm - 60) }
      tm_increment_hour t1 (num_hours + 1)
    else
      (tm_increment_hour t num_hours).map
        (fun u => { u with tm_min := u.tm_min + nm })
  else some { t with tm_min := t.tm_min + quantity }

/-- The nonnegative branch of `tm_decrement_minute` (pgtime.c lines
632-647). -/
def posDecMinute (t : Tm) (quantity : Int) : Option Tm :=
  if quantity ≥ 60 ∨ quantity > t.tm_min then
    let num_hours := quantity / 60
    let nm := quantity - num_hours * 60
    if nm > t.tm_min then
      let nm2 := nm - t.tm_min
      let t1 := { t with tm_min := 60 }
      (tm_decrement_hour t1 (num_hours + 1)).map
        (fun u => { u with tm_min := u.tm_min - nm2 })
    else
      (tm_decrement_hour t num_hours).map
        (fun u => { u with tm_min := u.tm_min - nm })
  else some { t with tm_min := t.tm_min - quantity }

/-- Embedding of `tm_increment_minute` (pgtime.c lines 444-468). -/
def tm_increment_minute (t : Tm) (quantity : Int) : Option Tm :=
  if quantity < 0 then posDecMinute t (-quantity) else posIncMinute t quantity

/-- Embedding of `tm_decrement_minute` (pgtime.c lines 626-649). -/
def tm_decrement_minute (t : Tm) (quantity : Int) : Option Tm :=
  if quantity < 0 then posIncMinute t (-quantity) else posDecMinute t quantity

/-- The nonnegative branch of `tm_increment_second` (pgtime.c lines
486-502). -/
def posIncSecond (t : Tm) (quantity : Int) : Option Tm :=
  if quantity ≥ 60 ∨ quantity ≥ 60 - t.tm_sec then
    let num_mins := quantity / 60
    let ns := quantity - num_mins * 60
    if ns ≥ 60 - t.tm_sec then
      let t1 := { t with tm_sec := t.tm_sec + (ns - 60) }
      tm_increment_minute t1 (num_mins + 1)
    else
      (tm_increment_minute t num_mins).map
        (fun u => { u with tm_sec := u.tm_sec + ns })
  else some { t with tm_sec := t.tm_sec + quantity }

/-- The nonnegative branch of `tm_decrement_second` (pgtime.c lines
667-682). -/
def posDecSecond (t : Tm) (quantity : Int) : Option Tm :=
  if quantity ≥ 60 ∨ quantity > t.tm_sec then
    let num_mins := quantity / 60
    let ns := quantity - num_mins * 60
    if ns > t.tm_sec then
      let ns2 := ns - t.tm_sec
      let t1 := { t with tm_sec := 60 }
      (tm_decrement_minute t1 (num_mins + 1)).map
        (fun u => { u with tm_sec := u.tm_sec - ns2 })
    else
      (tm_decrement_minute t num_mins).map
        (fun u => { u with tm_sec := u.tm_sec - ns })
  else some { t with tm_sec := t.tm_sec - quantity }

/-- Embedding of `tm_increment_second` (pgtime.c lines 480-505). -/
def tm_increment_second (t : Tm) (quantity : Int) : Option Tm :=
  if quantity < 0 then posDecSecond t (-quantity) else posIncSecond t quantity

/-- Embedding of `tm_decrement_second` (pgtime.c lines 661-685). -/
def tm_decrement_second (t : Tm) (quantity : Int) : Option Tm :=
  if quantity < 0 then posIncSecond t (-quantity) else posDecSecond t quantity

/-- Abstraction of the external platform calendar engine (libc).  The
forward conversion `mktime` and the reverse UTC decomposition `gmtime` may
each signal failure, embedded as `none`; the C code reacts to either
failure by terminating the process, which the functions below embed as a
`none` result of their own. -/
structure Platform where
  mktime : Tm → Option Int
  gmtime : Int → Option Tm

/-- Embedding of `get_day_diff` (pgtime.c lines 110-138): convert noon of
January 2, year offset 30, and the same instant one day later, through the
platform forward conversion, and return the difference. -/
def get_day_diff (mk : Tm → Option Int) : Option Int :=
  let datum_day : Tm := ⟨0, 0, 12, 2, 0, 30, -1⟩
  match mk datum_day with
  | none => none
  | some datum_time =>
    match mk { datum_day with tm_mday := datum_day.tm_mday + 1 } with
    | none => none
    | some tomorrow_time => some (tomorrow_time - datum_time)

/-- Embedding of `get_hour_diff` (pgtime.c lines 151-179). -/
def get_hour_diff (mk : Tm → Option Int) : Option Int :=
  let datum_day : Tm := ⟨0, 0, 12, 2, 0, 30, -1⟩
  match mk datum_day with
  | none => none
  | some datum_time =>
    match mk { datum_day with tm_hour := datum_day.tm_hour + 1 } with
    | none => none
    | some nexthour_time => some (nexthour_time - datum_time)

/-- Embedding of `get_sec_diff` (pgtime.c lines 192-220). -/
def get_sec_diff (mk : Tm → Option Int) : Option Int :=
  let datum_day : Tm := ⟨0, 0, 12, 2, 0, 30, -1⟩
  match mk datum_day with
  | none => none
  | some datum_time =>
    match mk { datum_day with tm_sec := datum_day.tm_sec + 1 } with
    | none => none
    | some nextsec_time => some (nextsec_time - datum_time)

/-- Embedding of `get_utc_timestamp_sec_diff` (pgtime.c lines 757-774):
decompose the timestamp through the platform UTC primitive and return the
intraday difference from the requested record to the observed one. -/
def get_utc_timestamp_sec_diff (p : Platform) (check_time : Int)
    (utc_tm : Tm) : Option Int :=
  match p.gmtime check_time with
  | none => none
  | some check_tm => some (tm_intraday_secs_diff utc_tm check_tm)

/-- Embedding of `get_utc_timestamp` (pgtime.c lines 694-739). -/
def get_utc_timestamp (p : Platform) (utc_tm : Tm) : Option Int :=
  match p.mktime utc_tm with
  | none => none
  | some utc_ts =>
    match get_utc_timestamp_sec_diff p utc_ts utc_tm with
    | none => none
    | some d =>
      if d = 0 then some utc_ts
      else
        match get_sec_diff p.mktime with
        | none => none
        | some one_sec =>
          let adj := utc_ts - one_sec * d
          match get_utc_timestamp_sec_diff p adj utc_tm with
          | none => none
          | some d2 =>
            if d2 = 0 then some adj
            else
              match get_utc_timestamp_sec_diff p (adj + one_sec) utc_tm with
              | none => none
              | some dp =>
                if dp = 0 then some (adj + one_sec)
                else
                  match get_utc_timestamp_sec_diff p (adj - one_sec)
                        utc_tm with
                  | none => none
                  | some dm =>
                    if dm = 0 then some (adj - one_sec) else none

/-- Modelled from the spec: the number of days from the POSIX epoch
1970-01-01 to the civil date y-m-d (month 1..12) in the proleptic Gregorian
calendar; a building block for the platform forward conversion, which is
libc code and not part of this repository. -/
def daysFromCivil (y m d : Int) : Int :=
  let y2 := if m ≤ 2 then y - 1 else y
  let era := (if y2 ≥ 0 then y2 else y2 - 399) / 400
  let yoe := y2 - era * 400
  let mp := (m + 9) % 12
  let doy := (153 * mp + 2) / 5 + d - 1
  let doe := yoe * 365 + yoe / 4 - yoe / 100 + doy
  era * 146097 + doe - 719468

/-- Modelled from the spec: the platform forward conversion (libc `mktime`)
on a POSIX-like platform, where a timestamp counts seconds, per spec
sections 4.5, 6 and 8.  It never fails on the calibration reference
points. -/
def posixMktime (t : Tm) : Option Int :=
  some (daysFromCivil (t.tm_year + 1900) (t.tm_mon + 1) t.tm_mday * 86400
        + t.tm_hour * 3600 + t.tm_min * 60 + t.tm_sec)

/-- The civil record for the POSIX epoch instant, 1970-01-01 00:00:00. -/
def epochTm : Tm := ⟨0, 0, 0, 1, 0, 70, 0⟩

/-- A platform whose UTC decomposition of every timestamp is the epoch
record; used to exercise the reconciler on an agreeing conversion. -/
def agreeingPlatform : Platform :=
  ⟨fun _ => some 0, fun _ => some epochTm⟩

/-- C1: the claimed increment/decrement round trip fails on the code.  The
record 1970-01-01 23:00:00 is accepted by validate_date, yet incrementing
by two hours and then decrementing by two hours yields 1970-01-02 00:00:00,
which tm_compare reports as GREATER (1), not EQUAL (0): tm_increment_hour
adds the post-carry remainder to the hour field twice. -/
theorem roundtrip_hour_fails :
    validate_date ⟨0, 0, 23, 1, 0, 70, 0⟩ = true ∧
    tm_increment_hour ⟨0, 0, 23, 1, 0, 70, 0⟩ 2 =
      some ⟨0, 0, 2, 2, 0, 70, 0⟩ ∧
    (tm_increment_hour ⟨0, 0, 23, 1, 0, 70, 0⟩ 2).bind
        (fun u => tm_decrement_hour u 2) =
      some ⟨0, 0, 0, 2, 0, 70, 0⟩ ∧
    tm_compare ⟨0, 0, 0, 2, 0, 70, 0⟩ ⟨0, 0, 23, 1, 0, 70, 0⟩ = 1 := by
  decide

/-- C2: the claimed flat-timeline remainder law fails for tm_increment_hour.
From 23:30:00 adding 90 minutes yields 02:00:00 on the next day, not
01:00:00 as the spec example states, and from hour 23 adding 2 hours yields
hour 2, although (23 + 2) mod 24 = 1: the post-carry remainder is added to
the hour field twice. -/
theorem increment_hour_remainder_fails :
    tm_increment_minute ⟨0, 30, 23, 1, 0, 70, 0⟩ 90 =
      some ⟨0, 0, 2, 2, 0, 70, 0⟩ ∧
    tm_increment_hour ⟨0, 0, 23, 1, 0, 70, 0⟩ 2 =
      some ⟨0, 0, 2, 2, 0, 70, 0⟩ ∧
    (23 + 2) % 24 = (1 : Int) := by
  decide

/-- C3: the leap-day rule of walking a day across the end of February fails
on the code, which passes the raw year offset instead of the calendar year
to is_leap_year.  Year offset 0 is calendar year 1900, not a leap year, yet
incrementing February 28 yields February 29 (which validate_date itself
rejects) and decrementing March 1 yields February 29 as well; conversely,
year offset 100 is calendar year 2000, a leap year, yet incrementing
February 28 skips to March 1. -/
theorem leap_day_walk_fails :
    is_leap_year (0 + 1900) = false ∧
    tm_increment_day ⟨0, 0, 0, 28, 1, 0, 0⟩ 1 = some ⟨0, 0, 0, 29, 1, 0, 0⟩ ∧
    validate_date ⟨0, 0, 0, 29, 1, 0, 0⟩ = false ∧
    tm_decrement_day ⟨0, 0, 0, 1, 2, 0, 0⟩ 1 = some ⟨0, 0, 0, 29, 1, 0, 0⟩ ∧
    is_leap_year (100 + 1900) = true ∧
    tm_increment_day ⟨0, 0, 0, 28, 1, 100, 0⟩ 1 =
      some ⟨0, 0, 0, 1, 2, 100, 0⟩ := by
  decide

/-- C4: validate_date accepts a record exactly when the year offset is not
the sentinel -1900, month is in 0..11, hour in 0..23, minute in 0..59,
second in 0..59, and the day is at least 1 and at most the month length,
with day 29 of month 1 accepted exactly when the calendar year
(offset + 1900) is a leap year; moreover it rejects Feb 30, rejects Feb 29
of 1970, accepts Feb 29 of 1972, rejects hour 24 and rejects second 60. -/
theorem validate_date_spec :
    (∀ t : Tm,
      validate_date t = true ↔
        (t.tm_year ≠ -1900 ∧
         (0 ≤ t.tm_mon ∧ t.tm_mon ≤ 11) ∧
         (0 ≤ t.tm_hour ∧ t.tm_hour ≤ 23) ∧
         (0 ≤ t.tm_min ∧ t.tm_min ≤ 59) ∧
         (0 ≤ t.tm_sec ∧ t.tm_sec ≤ 59) ∧
         1 ≤ t.tm_mday ∧
         (t.tm_mday ≤ days_in_month t.tm_mon ∨
          (t.tm_mon = 1 ∧ t.tm_mday = 29 ∧
           is_leap_year (t.tm_year + 1900) = true)))) ∧
    validate_date ⟨0, 0, 0, 30, 1, 70, 0⟩ = false ∧
    validate_date ⟨0, 0, 0, 29, 1, 70, 0⟩ = false ∧
    validate_date ⟨0, 0, 0, 29, 1, 72, 0⟩ = true ∧
    validate_date ⟨0, 0, 24, 1, 0, 70, 0⟩ = false ∧
    validate_date ⟨60, 0, 0, 1, 0, 70, 0⟩ = false := by
  refine ⟨fun t => ?_, by decide, by decide, by decide, by decide, by decide⟩
  unfold validate_date
  split_ifs with hc
  · constructor
    · intro hv; exact absurd hv (by simp)
    · intro hp
      exfalso
      obtain ⟨p1, ⟨p2a, p2b⟩, ⟨p3a, p3b⟩, ⟨p4a, p4b⟩, ⟨p5a, p5b⟩, p6, p7⟩ := hp
      rcases hc with h | h | h | h | h | h | h
      · exact p1 h
      · omega
      · omega
      · rcases p7 with hD | hE
        · exact absurd h.1 (not_lt.mpr hD)
        · exact h.2 hE
      · omega
      · omega
      · omega
  · constructor
    · intro _
      push_neg at hc
      obtain ⟨h1, h2, h3, h4, h5, h6, h7⟩ := hc
      refine ⟨h1, h2, h5, h6, h7, h3, ?_⟩
      rcases le_or_lt t.tm_mday (days_in_month t.tm_mon) with hD | hD
      · exact Or.inl hD
      · exact Or.inr (h4 hD)
    · intro _; rfl

/-- C5: tm_intraday_secs_diff is 0 whenever tm_compare reports EQUAL, and
otherwise equals the raw difference (b.hour-a.hour)*3600 +
(b.min-a.min)*60 + (b.sec-a.sec), minus 86400 when tm_compare is GREATER
and the raw value is positive, plus 86400 when tm_compare is LESS and the
raw value is negative; for 23:00:00 against 01:00:00 of the next day the
result is +7200. -/
theorem intraday_secs_diff_spec :
    (∀ a b : Tm,
      tm_intraday_secs_diff a b =
        if tm_compare a b = 0 then 0
        else
          let raw := (b.tm_hour - a.tm_hour) * 3600
                     + (b.tm_min - a.tm_min) * 60 + (b.tm_sec - a.tm_sec)
          if tm_compare a b = 1 ∧ raw > 0 then raw - 86400
          else if tm_compare a b = -1 ∧ raw < 0 then raw + 86400
          else raw) ∧
    tm_intraday_secs_diff ⟨0, 0, 23, 1, 0, 70, 0⟩ ⟨0, 0, 1, 2, 0, 70, 0⟩ =
      7200 := by
  exact ⟨fun a b => rfl, by decide⟩

/-- C7: rolling forward past December 31 bumps the year field by one except
from field value -1, which jumps to +1; rolling back past January 1 drops
the year field by one except from field value 1, which jumps to -1. -/
theorem year_zero_skip :
    ∀ (y h mi s dst : Int),
      tm_increment_day ⟨s, mi, h, 31, 11, y, dst⟩ 1 =
        some ⟨s, mi, h, 1, 0, if y = -1 then 1 else y + 1, dst⟩ ∧
      tm_decrement_day ⟨s, mi, h, 1, 0, y, dst⟩ 1 =
        some ⟨s, mi, h, 31, 11, if y = 1 then -1 else y - 1, dst⟩ := by
  intro y h mi s dst
  exact ⟨rfl, rfl⟩

/-- C8: on the spec-modelled POSIX-like platform the three calibrated unit
sizes exist and are mutually consistent: the day unit is 24 times the hour
unit and 86400 times the second unit. -/
theorem calibrator_consistent :
    ∃ dd hd sd : Int,
      get_day_diff posixMktime = some dd ∧
      get_hour_diff posixMktime = some hd ∧
      get_sec_diff posixMktime = some sd ∧
      dd = 24 * hd ∧ dd = 86400 * sd := by
  exact ⟨86400, 3600, 1, by decide, by decide, by decide, by decide, by decide⟩

/-- One forward day step from a record with month in range succeeds and
keeps the month in range. -/
theorem incDayStep_mon (t : Tm) (h0 : 0 ≤ t.tm_mon) (h1 : t.tm_mon ≤ 11) :
    ∃ r, incDayStep t = some r ∧ 0 ≤ r.tm_mon ∧ r.tm_mon ≤ 11 := by
  obtain ⟨s, mi, h, d, mon, y, dst⟩ := t
  dsimp only at h0 h1
  unfold incDayStep
  interval_cases mon <;> simp <;> split_ifs <;> norm_num

/-- One backward day step from a record with month in range succeeds and
keeps the month in range. -/
theorem decDayStep_mon (t : Tm) (h0 : 0 ≤ t.tm_mon) (h1 : t.tm_mon ≤ 11) :
    ∃ r, decDayStep t = some r ∧ 0 ≤ r.tm_mon ∧ r.tm_mon ≤ 11 := by
  obtain ⟨s, mi, h, d, mon, y, dst⟩ := t
  dsimp only at h0 h1
  unfold decDayStep
  interval_cases mon <;> simp <;> split_ifs <;> norm_num

/-- The forward day walk preserves the month range. -/
theorem walkIncDay_mon (n : Nat) :
    ∀ t : Tm, 0 ≤ t.tm_mon → t.tm_mon ≤ 11 →
      ∃ r, walkIncDay t n = some r ∧ 0 ≤ r.tm_mon ∧ r.tm_mon ≤ 11 := by
  induction n with
  | zero => exact fun t h0 h1 => ⟨t, rfl, h0, h1⟩
  | succ n ih =>
    intro t h0 h1
    obtain ⟨r, hr, hr0, hr1⟩ := incDayStep_mon t h0 h1
    unfold walkIncDay
    rw [hr]
    exact ih r hr0 hr1

/-- The backward day walk preserves the month range. -/
theorem walkDecDay_mon (n : Nat) :
    ∀ t : Tm, 0 ≤ t.tm_mon → t.tm_mon ≤ 11 →
      ∃ r, walkDecDay t n = some r ∧ 0 ≤ r.tm_mon ∧ r.tm_mon ≤ 11 := by
  induction n with
  | zero => exact fun t h0 h1 => ⟨t, rfl, h0, h1⟩
  | succ n ih =>
    intro t h0 h1
    obtain ⟨r, hr, hr0, hr1⟩ := decDayStep_mon t h0 h1
    unfold walkDecDay
    rw [hr]
    exact ih r hr0 hr1

/-- C9: from a record with month in 0..11, tm_increment_day and
tm_decrement_day never reach the assert(false) default branch for any
quantity, and the resulting month is again in 0..11. -/
theorem day_walk_month_invariant (t : Tm) (q : Int)
    (h0 : 0 ≤ t.tm_mon) (h1 : t.tm_mon ≤ 11) :
    (∃ r, tm_increment_day t q = some r ∧ 0 ≤ r.tm_mon ∧ r.tm_mon ≤ 11) ∧
    (∃ r, tm_decrement_day t q = some r ∧ 0 ≤ r.tm_mon ∧ r.tm_mon ≤ 11) := by
  unfold tm_increment_day tm_decrement_day
  split_ifs with hq
  · exact ⟨walkDecDay_mon _ t h0 h1, walkIncDay_mon _ t h0 h1⟩
  · exact ⟨walkIncDay_mon _ t h0 h1, walkDecDay_mon _ t h0 h1⟩

/-- Witness for C9 at a concrete input: walking 500 days forward and
backward from 1999-12-31 stays inside the month range. -/
theorem day_walk_month_invariant_witness :
    (0 : Int) ≤ (⟨0, 0, 0, 31, 11, 99, 0⟩ : Tm).tm_mon ∧
    (⟨0, 0, 0, 31, 11, 99, 0⟩ : Tm).tm_mon ≤ 11 ∧
    ((∃ r, tm_increment_day ⟨0, 0, 0, 31, 11, 99, 0⟩ 500 = some r ∧
        0 ≤ r.tm_mon ∧ r.tm_mon ≤ 11) ∧
     (∃ r, tm_decrement_day ⟨0, 0, 0, 31, 11, 99, 0⟩ 500 = some r ∧
        0 ≤ r.tm_mon ∧ r.tm_mon ≤ 11)) :=
  ⟨by decide, by decide,
   day_walk_month_invariant ⟨0, 0, 0, 31, 11, 99, 0⟩ 500 (by decide)
     (by decide)⟩

/-- One forward day step changes none of the hour, minute, second and DST
fields. -/
theorem incDayStep_frame (t r : Tm) (h : incDayStep t = some r) :
    r.tm_hour = t.tm_hour ∧ r.tm_min = t.tm_min ∧ r.tm_sec = t.tm_sec ∧
    r.tm_isdst = t.tm_isdst := by
  simp only [incDayStep] at h
  split_ifs at h <;>
    first
      | exact Option.noConfusion h
      | (injection h with h; subst h; exact ⟨rfl, rfl, rfl, rfl⟩)

/-- One backward day step changes none of the hour, minute, second and DST
fields. -/
theorem decDayStep_frame (t r : Tm) (h : decDayStep t = some r) :
    r.tm_hour = t.tm_hour ∧ r.tm_min = t.tm_min ∧ r.tm_sec = t.tm_sec ∧
    r.tm_isdst = t.tm_isdst := by
  simp only [decDayStep] at h
  split_ifs at h <;>
    first
      | exact Option.noConfusion h
      | (injection h with h; subst h; exact ⟨rfl, rfl, rfl, rfl⟩)

/-- The forward day walk changes none of the hour, minute, second and DST
fields. -/
theorem walkIncDay_frame (n : Nat) :
    ∀ t r : Tm, walkIncDay t n = some r →
      r.tm_hour = t.tm_hour ∧ r.tm_min = t.tm_min ∧ r.tm_sec = t.tm_sec ∧
      r.tm_isdst = t.tm_isdst := by
  induction n with
  | zero =>
    intro t r h
    injection h with h
    subst h
    exact ⟨rfl, rfl, rfl, rfl⟩
  | succ n ih =>
    intro t r h
    unfold walkIncDay at h
    rcases hs : incDayStep t with _ | t2
    · rw [hs] at h; exact Option.noConfusion h
    · rw [hs] at h
      obtain ⟨a1, a2, a3, a4⟩ := incDayStep_frame t t2 hs
      obtain ⟨b1, b2, b3, b4⟩ := ih t2 r h
      exact ⟨b1.trans a1, b2.trans a2, b3.trans a3, b4.trans a4⟩

/-- The backward day walk changes none of the hour, minute, second and DST
fields. -/
theorem walkDecDay_frame (n : Nat) :
    ∀ t r : Tm, walkDecDay t n = some r →
      r.tm_hour = t.tm_hour ∧ r.tm_min = t.tm_min ∧ r.tm_sec = t.tm_sec ∧
      r.tm_isdst = t.tm_isdst := by
  induction n with
  | zero =>
    intro t r h
    injection h with h
    subst h
    exact ⟨rfl, rfl, rfl, rfl⟩
  | succ n ih =>
    intro t r h
    unfold walkDecDay at h
    rcases hs : decDayStep t with _ | t2
    · rw [hs] at h; exact Option.noConfusion h
    · rw [hs] at h
      obtain ⟨a1, a2, a3, a4⟩ := decDayStep_frame t t2 hs
      obtain ⟨b1, b2, b3, b4⟩ := ih t2 r h
      exact ⟨b1.trans a1, b2.trans a2, b3.trans a3, b4.trans a4⟩

/-- C10: whenever tm_increment_day or tm_decrement_day returns, for any
record and any quantity of either sign, the hour, minute, second and DST
fields of the result equal those of the input. -/
theorem day_walk_frame (t : Tm) (q : Int) :
    (∀ r, tm_increment_day t q = some r →
       r.tm_hour = t.tm_hour ∧ r.tm_min = t.tm_min ∧ r.tm_sec = t.tm_sec ∧
       r.tm_isdst = t.tm_isdst) ∧
    (∀ r, tm_decrement_day t q = some r →
       r.tm_hour = t.tm_hour ∧ r.tm_min = t.tm_min ∧ r.tm_sec = t.tm_sec ∧
       r.tm_isdst = t.tm_isdst) := by
  unfold tm_increment_day tm_decrement_day
  split_ifs with hq
  · exact ⟨fun r h => walkDecDay_frame _ t r h,
           fun r h => walkIncDay_frame _ t r h⟩
  · exact ⟨fun r h => walkIncDay_frame _ t r h,
           fun r h => walkDecDay_frame _ t r h⟩

/-- Witness for C10 at a concrete input: adding 45 days to
1970-01-01 13:14:15 leaves the time of day and DST hint unchanged. -/
theorem day_walk_frame_witness :
    tm_increment_day ⟨15, 14, 13, 1, 0, 70, 1⟩ 45 =
      some ⟨15, 14, 13, 15, 1, 70, 1⟩ ∧
    ((⟨15, 14, 13, 15, 1, 70, 1⟩ : Tm).tm_hour =
       (⟨15, 14, 13, 1, 0, 70, 1⟩ : Tm).tm_hour ∧
     (⟨15, 14, 13, 15, 1, 70, 1⟩ : Tm).tm_min =
       (⟨15, 14, 13, 1, 0, 70, 1⟩ : Tm).tm_min ∧
     (⟨15, 14, 13, 15, 1, 70, 1⟩ : Tm).tm_sec =
       (⟨15, 14, 13, 1, 0, 70, 1⟩ : Tm).tm_sec ∧
     (⟨15, 14, 13, 15, 1, 70, 1⟩ : Tm).tm_isdst =
       (⟨15, 14, 13, 1, 0, 70, 1⟩ : Tm).tm_isdst) :=
  ⟨by decide,
   (day_walk_frame ⟨15, 14, 13, 1, 0, 70, 1⟩ 45).1
     ⟨15, 14, 13, 15, 1, 70, 1⟩ (by decide)⟩

/-- C6: get_utc_timestamp returns the platform forward-conversion result
unchanged when the recomputed intraday difference is 0; any timestamp it
returns recomputes to difference 0; when the first difference is nonzero
the result can only be the adjusted timestamp or one of its two
one-second-unit neighbors; and it is fatal (none) exactly when a platform
conversion fails or, after the adjustment, neither the adjusted timestamp
nor either neighbor yields difference 0. -/
theorem reconciler_spec (p : Platform) (utc_tm : Tm) :
    (∀ ts, p.mktime utc_tm = some ts →
       get_utc_timestamp_sec_diff p ts utc_tm = some 0 →
       get_utc_timestamp p utc_tm = some ts) ∧
    (∀ r, get_utc_timestamp p utc_tm = some r →
       get_utc_timestamp_sec_diff p r utc_tm = some 0) ∧
    (∀ ts d o r, p.mktime utc_tm = some ts →
       get_utc_timestamp_sec_diff p ts utc_tm = some d → d ≠ 0 →
       get_sec_diff p.mktime = some o →
       get_utc_timestamp p utc_tm = some r →
       (r = ts - o * d ∨ r = ts - o * d + o ∨ r = ts - o * d - o)) ∧
    (get_utc_timestamp p utc_tm = none ↔
       p.mktime utc_tm = none ∨
       ∃ ts, p.mktime utc_tm = some ts ∧
         (get_utc_timestamp_sec_diff p ts utc_tm = none ∨
          ∃ d, get_utc_timestamp_sec_diff p ts utc_tm = some d ∧ d ≠ 0 ∧
            (get_sec_diff p.mktime = none ∨
             ∃ o, get_sec_diff p.mktime = some o ∧
               (get_utc_timestamp_sec_diff p (ts - o * d) utc_tm = none ∨
                ∃ d2, get_utc_timestamp_sec_diff p (ts - o * d) utc_tm =
                        some d2 ∧ d2 ≠ 0 ∧
                  (get_utc_timestamp_sec_diff p (ts - o * d + o) utc_tm =
                     none ∨
                   ∃ dp, get_utc_timestamp_sec_diff p (ts - o * d + o)
                           utc_tm = some dp ∧ dp ≠ 0 ∧
                     (get_utc_timestamp_sec_diff p (ts - o * d - o) utc_tm =
                        none ∨
                      ∃ dm, get_utc_timestamp_sec_diff p (ts - o * d - o)
                              utc_tm = some dm ∧ dm ≠ 0)))))) := by
  rcases hm : p.mktime utc_tm with _ | ts0
  · have hval : get_utc_timestamp p utc_tm = none := by
      unfold get_utc_timestamp; simp [hm]
    refine ⟨?_, ?_, ?_, ?_⟩
    · intro ts hts _; exact Option.noConfusion hts
    · intro r hr; rw [hval] at hr; exact Option.noConfusion hr
    · intro ts d o r hts _ _ _ _; exact Option.noConfusion hts
    · rw [hval]
      constructor
      · intro _; exact Or.inl rfl
      · intro _; rfl
  · rcases hd : get_utc_timestamp_sec_diff p ts0 utc_tm with _ | d0
    · have hval : get_utc_timestamp p utc_tm = none := by
        unfold get_utc_timestamp; simp [hm, hd]
      refine ⟨?_, ?_, ?_, ?_⟩
      · intro ts hts hdts
        injection hts with hEq; subst hEq
        rw [hd] at hdts; exact Option.noConfusion hdts
      · intro r hr; rw [hval] at hr; exact Option.noConfusion hr
      · intro ts d o r hts hdts _ _ _
        injection hts with hEq; subst hEq
        rw [hd] at hdts; exact Option.noConfusion hdts
      · rw [hval]
        constructor
        · intro _; exact Or.inr ⟨ts0, rfl, Or.inl hd⟩
        · intro _; rfl
    · by_cases h0 : d0 = 0
      · subst h0
        have hval : get_utc_timestamp p utc_tm = some ts0 := by
          unfold get_utc_timestamp; simp [hm, hd]
        refine ⟨?_, ?_, ?_, ?_⟩
        · intro ts hts _
          injection hts with hEq; subst hEq
          exact hval
        · intro r hr
          rw [hval] at hr
          injection hr with hEq; subst hEq
          exact hd
        · intro ts d o r hts hdts hdne _ _
          injection hts with hEq; subst hEq
          rw [hd] at hdts
          injection hdts with hEq2
          exact absurd hEq2.symm hdne
        · rw [hval]
          constructor
          · intro h; exact Option.noConfusion h
          · rintro (h | ⟨ts, hts, hin⟩)
            · exact Option.noConfusion h
            · injection hts with hEq; subst hEq
              rcases hin with h | ⟨d, hdd, hdne, _⟩
              · rw [hd] at h; exact Option.noConfusion h
              · rw [hd] at hdd
                injection hdd with hEq2
                exact absurd hEq2.symm hdne
      · rcases ho : get_sec_diff p.mktime with _ | one
        · have hval : get_utc_timestamp p utc_tm = none := by
            unfold get_utc_timestamp; simp [hm, hd, h0, ho]
          refine ⟨?_, ?_, ?_, ?_⟩
          · intro ts hts hdts
            injection hts with hEq; subst hEq
            rw [hd] at hdts
            injection hdts with hEq2
            exact absurd hEq2 h0
          · intro r hr; rw [hval] at hr; exact Option.noConfusion hr
          · intro ts d o r _ _ _ hos _
            exact Option.noConfusion hos
          · rw [hval]
            constructor
            · intro _
              exact Or.inr ⟨ts0, rfl, Or.inr ⟨d0, hd, h0, Or.inl rfl⟩⟩
            · intro _; rfl
        · rcases hd2 : get_utc_timestamp_sec_diff p (ts0 - one * d0) utc_tm
            with _ | d2
          · have hval : get_utc_timestamp p utc_tm = none := by
              unfold get_utc_timestamp; simp [hm, hd, h0, ho, hd2]
            refine ⟨?_, ?_, ?_, ?_⟩
            · intro ts hts hdts
              injection hts with hEq; subst hEq
              rw [hd] at hdts
              injection hdts with hEq2
              exact absurd hEq2 h0
            · intro r hr; rw [hval] at hr; exact Option.noConfusion hr
            · intro ts d o r hts hdts hdne hos hr
              rw [hval] at hr; exact Option.noConfusion hr
            · rw [hval]
              constructor
              · intro _
                exact Or.inr ⟨ts0, rfl, Or.inr ⟨d0, hd, h0,
                  Or.inr ⟨one, rfl, Or.inl hd2⟩⟩⟩
              · intro _; rfl
          · by_cases h2 : d2 = 0
            · subst h2
              have hval : get_utc_timestamp p utc_tm =
                  some (ts0 - one * d0) := by
                unfold get_utc_timestamp; simp [hm, hd, h0, ho, hd2]
              refine ⟨?_, ?_, ?_, ?_⟩
              · intro ts hts hdts
                injection hts with hEq; subst hEq
                rw [hd] at hdts
                injection hdts with hEq2
                exact absurd hEq2 h0
              · intro r hr
                rw [hval] at hr
                injection hr with hEq; subst hEq
                exact hd2
              · intro ts d o r hts hdts hdne hos hr
                injection hts with hEq; subst hEq
                rw [hd] at hdts
                injection hdts with hEq2; subst hEq2
                injection hos with hEq3; subst hEq3
                rw [hval] at hr
                injection hr with hEq4; subst hEq4
                exact Or.inl rfl
              · rw [hval]
                constructor
                · intro h; exact Option.noConfusion h
                · rintro (h | ⟨ts, hts, hin⟩)
                  · exact Option.noConfusion h
                  · injection hts with hEq; subst hEq
                    rcases hin with h | ⟨d, hdd, hdne, hin2⟩
                    · rw [hd] at h; exact Option.noConfusion h
                    · rw [hd] at hdd
                      injection hdd with hEq2; subst hEq2
                      rcases hin2 with h | ⟨o, hoo, hin3⟩
                      · exact Option.noConfusion h
                      · injection hoo with hEq3; subst hEq3
                        rcases hin3 with h | ⟨d2x, hdd2, hd2ne, _⟩
                        · rw [hd2] at h; exact Option.noConfusion h
                        · rw [hd2] at hdd2
                          injection hdd2 with hEq4
                          exact absurd hEq4.symm hd2ne
            · rcases hdp : get_utc_timestamp_sec_diff p
                  (ts0 - one * d0 + one) utc_tm with _ | dp
              · have hval : get_utc_timestamp p utc_tm = none := by
                  unfold get_utc_timestamp
                  simp [hm, hd, h0, ho, hd2, h2, hdp]
                refine ⟨?_, ?_, ?_, ?_⟩
                · intro ts hts hdts
                  injection hts with hEq; subst hEq
                  rw [hd] at hdts
                  injection hdts with hEq2
                  exact absurd hEq2 h0
                · intro r hr; rw [hval] at hr; exact Option.noConfusion hr
                · intro ts d o r hts hdts hdne hos hr
                  rw [hval] at hr; exact Option.noConfusion hr
                · rw [hval]
                  constructor
                  · intro _
                    exact Or.inr ⟨ts0, rfl, Or.inr ⟨d0, hd, h0,
                      Or.inr ⟨one, rfl, Or.inr ⟨d2, hd2, h2,
                        Or.inl hdp⟩⟩⟩⟩
                  · intro _; rfl
              · by_cases hp : dp = 0
                · subst hp
                  have hval : get_utc_timestamp p utc_tm =
                      some (ts0 - one * d0 + one) := by
                    unfold get_utc_timestamp
                    simp [hm, hd, h0, ho, hd2, h2, hdp]
                  refine ⟨?_, ?_, ?_, ?_⟩
                  · intro ts hts hdts
                    injection hts with hEq; subst hEq
                    rw [hd] at hdts
                    injection hdts with hEq2
                    exact absurd hEq2 h0
                  · intro r hr
                    rw [hval] at hr
                    injection hr with hEq; subst hEq
                    exact hdp
                  · intro ts d o r hts hdts hdne hos hr
                    injection hts with hEq; subst hEq
                    rw [hd] at hdts
                    injection hdts with hEq2; subst hEq2
                    injection hos with hEq3; subst hEq3
                    rw [hval] at hr
                    injection hr with hEq4; subst hEq4
                    exact Or.inr (Or.inl rfl)
                  · rw [hval]
                    constructor
                    · intro h; exact Option.noConfusion h
                    · rintro (h | ⟨ts, hts, hin⟩)
                      · exact Option.noConfusion h
                      · injection hts with hEq; subst hEq
                        rcases hin with h | ⟨d, hdd, hdne, hin2⟩
                        · rw [hd] at h; exact Option.noConfusion h
                        · rw [hd] at hdd
                          injection hdd with hEq2; subst hEq2
                          rcases hin2 with h | ⟨o, hoo, hin3⟩
                          · exact Option.noConfusion h
                          · injection hoo with hEq3; subst hEq3
                            rcases hin3 with h | ⟨d2x, hdd2, hd2ne, hin4⟩
                            · rw [hd2] at h; exact Option.noConfusion h
                            · rcases hin4 with h | ⟨dpx, hddp, hdpne, _⟩
                              · rw [hdp] at h; exact Option.noConfusion h
                              · rw [hdp] at hddp
                                injection hddp with hEq4
                                exact absurd hEq4.symm hdpne
                · rcases hdm : get_utc_timestamp_sec_diff p
                      (ts0 - one * d0 - one) utc_tm with _ | dm
                  · have hval : get_utc_timestamp p utc_tm = none := by
                      unfold get_utc_timestamp
                      simp [hm, hd, h0, ho, hd2, h2, hdp, hp, hdm]
                    refine ⟨?_, ?_, ?_, ?_⟩
                    · intro ts hts hdts
                      injection hts with hEq; subst hEq
                      rw [hd] at hdts
                      injection hdts with hEq2
                      exact absurd hEq2 h0
                    · intro r hr
                      rw [hval] at hr; exact Option.noConfusion hr
                    · intro ts d o r hts hdts hdne hos hr
                      rw [hval] at hr; exact Option.noConfusion hr
                    · rw [hval]
                      constructor
                      · intro _
                        exact Or.inr ⟨ts0, rfl, Or.inr ⟨d0, hd, h0,
                          Or.inr ⟨one, rfl, Or.inr ⟨d2, hd2, h2,
                            Or.inr ⟨dp, hdp, hp, Or.inl hdm⟩⟩⟩⟩⟩
                      · intro _; rfl
                  · by_cases hq : dm = 0
                    · subst hq
                      have hval : get_utc_timestamp p utc_tm =
                          some (ts0 - one * d0 - one) := by
                        unfold get_utc_timestamp
                        simp [hm, hd, h0, ho, hd2, h2, hdp, hp, hdm]
                      refine ⟨?_, ?_, ?_, ?_⟩
                      · intro ts hts hdts
                        injection hts with hEq; subst hEq
                        rw [hd] at hdts
                        injection hdts with hEq2
                        exact absurd hEq2 h0
                      · intro r hr
                        rw [hval] at hr
                        injection hr with hEq; subst hEq
                        exact hdm
                      · intro ts d o r hts hdts hdne hos hr
                        injection hts with hEq; subst hEq
                        rw [hd] at hdts
                        injection hdts with hEq2; subst hEq2
                        injection hos with hEq3; subst hEq3
                        rw [hval] at hr
                        injection hr with hEq4; subst hEq4
                        exact Or.inr (Or.inr rfl)
                      · rw [hval]
                        constructor
                        · intro h; exact Option.noConfusion h
                        · rintro (h | ⟨ts, hts, hin⟩)
                          · exact Option.noConfusion h
                          · injection hts with hEq; subst hEq
                            rcases hin with h | ⟨d, hdd, hdne, hin2⟩
                            · rw [hd] at h; exact Option.noConfusion h
                            · rw [hd] at hdd
                              injection hdd with hEq2; subst hEq2
                              rcases hin2 with h | ⟨o, hoo, hin3⟩
                              · exact Option.noConfusion h
                              · injection hoo with hEq3; subst hEq3
                                rcases hin3 with h | ⟨d2x, hdd2, hd2ne, hin4⟩
                                · rw [hd2] at h; exact Option.noConfusion h
                                · rcases hin4 with h | ⟨dpx, hddp, hdpne, hin5⟩
                                  · rw [hdp] at h
                                    exact Option.noConfusion h
                                  · rcases hin5 with h | ⟨dmx, hddm, hdmne⟩
                                    · rw [hdm] at h
                                      exact Option.noConfusion h
                                    · rw [hdm] at hddm
                                      injection hddm with hEq4
                                      exact absurd hEq4.symm hdmne
                    · have hval : get_utc_timestamp p utc_tm = none := by
                        unfold get_utc_timestamp
                        simp [hm, hd, h0, ho, hd2, h2, hdp, hp, hdm, hq]
                      refine ⟨?_, ?_, ?_, ?_⟩
                      · intro ts hts hdts
                        injection hts with hEq; subst hEq
                        rw [hd] at hdts
                        injection hdts with hEq2
                        exact absurd hEq2 h0
                      · intro r hr
                        rw [hval] at hr; exact Option.noConfusion hr
                      · intro ts d o r hts hdts hdne hos hr
                        rw [hval] at hr; exact Option.noConfusion hr
                      · rw [hval]
                        constructor
                        · intro _
                          exact Or.inr ⟨ts0, rfl, Or.inr ⟨d0, hd, h0,
                            Or.inr ⟨one, rfl, Or.inr ⟨d2, hd2, h2,
                              Or.inr ⟨dp, hdp, hp,
                                Or.inr ⟨dm, hdm, hq⟩⟩⟩⟩⟩⟩
                        · intro _; rfl

/-- Witness for C6 at a concrete input: on a platform whose decomposition
of every timestamp is the epoch record, converting the epoch record
returns the forward-conversion result unchanged. -/
theorem reconciler_spec_witness :
    get_utc_timestamp agreeingPlatform epochTm = some 0 :=
  (reconciler_spec agreeingPlatform epochTm).1 0 rfl (by decide)

end Pgtime
